import Mathlib

/-!
Verification of a WhatsApp Web auto-responder script (`loyalL.py`).

The script polls WhatsApp Web for unread chats, matches message previews
against a trigger table, sends a canned reply, and records a fingerprint of
each handled conversation in a persisted dedup set.  This file is a shallow
embedding of the pure data-flow of that script:

* Python strings are modelled as `List Char` where character-level
  operations matter (`lower`, `strip`, substring tests, `split`), and as
  `String` where the contents are opaque (fingerprints, the dedup set).
* The Python `set` of responded-chat fingerprints is modelled as
  `Finset String`; Python's arbitrary set-iteration order (`list(s)`) is
  modelled by the canonical sorted enumeration `Finset.sort (· ≤ ·)`; the
  properties proved below are insensitive to the enumeration order.
* The persisted JSON file is modelled by `FileState`: absent, unreadable or
  unparsable (the `except` path of the script), or a decoded JSON array of
  strings.
* Selenium calls (opening a chat, sending a message) are external and
  fallible; their outcomes are modelled by Boolean oracles.
-/

namespace LoyalL

/-- Python `str.lower()` restricted to the case mapping of ASCII letters
(`Char.toLower`); all trigger phrases in the script are ASCII. -/
def pyLower (s : List Char) : List Char :=
  s.map Char.toLower

/-- Python `str.strip()`: drop whitespace from both ends. -/
def pyStrip (s : List Char) : List Char :=
  ((s.dropWhile Char.isWhitespace).reverse.dropWhile Char.isWhitespace).reverse

/-- Python substring containment `t in s` for strings. -/
def pyInStr : List Char → List Char → Bool
  | t, [] => t.isEmpty
  | t, c :: s => t.isPrefixOf (c :: s) || pyInStr t s

/-- The canned reply of the trigger table (loyalL.py line 41). -/
def AUTO_RESPONSE : List Char :=
  ("Hello there! This is an automated response. I\x27ll get back to you soon.").toList

/-- `TRIGGER_RESPONSES` (loyalL.py lines 40-42): a one-entry mapping from
trigger phrase to canned reply, modelled as an association list (Python dicts
iterate in insertion order). -/
def TRIGGER_RESPONSES : List (List Char × List Char) :=
  [("hellokaun".toList, AUTO_RESPONSE)]

/-- `check_for_trigger_words` (loyalL.py lines 140-151).  Returns the first
`(trigger, response)` entry whose lower-cased trigger phrase occurs in the
lower-cased, stripped message text; `None` for a falsy (empty) message. -/
def check_for_trigger_words (message_text : List Char) : Option (List Char × List Char) :=
  if message_text = [] then none
  else
    TRIGGER_RESPONSES.find? fun p => pyInStr (pyLower p.1) (pyStrip (pyLower message_text))

/-- Python `message.split('\n')` (loyalL.py line 218): split on every newline;
never returns an empty list ( `"".split('\n') == [""]` ). -/
def pySplitNl : List Char → List (List Char)
  | [] => [[]]
  | c :: cs =>
    match pySplitNl cs with
    | [] => [[c]]
    | l :: ls => if c = '\n' then [] :: l :: ls else (c :: l) :: ls

/-- The text content that `send_message` (loyalL.py lines 216-223) types into
the input box: each line of `message.split('\n')` is sent with `send_keys`,
with Shift+Enter (a newline) between consecutive lines.  (The JavaScript
fallback on lines 227-244 assigns `textContent = message`, also verbatim.) -/
def send_message_text (message : List Char) : List Char :=
  List.intercalate ['\n'] (pySplitNl message)

/-- Modelled from the spec (sections 4.3 and 8), which describes a sanitizer
that "strips characters with code points above 0xFFFF while preserving all
others".  No such step exists anywhere in loyalL.py; this definition follows
the spec words only, for comparison with `send_message_text`. -/
def sanitizeSpec (s : List Char) : List Char :=
  s.filter fun c => c.toNat ≤ 0xFFFF

/-- State of the persisted file `responded_chats.json`.  `absent`: the file
does not exist (`os.path.exists` is false).  `corrupt`: reading or JSON-parsing
the file raises (the `except` path of `load_responded_chats`).  `content l`:
the file holds a JSON array of strings decoding to `l`. -/
inductive FileState
  | absent
  | corrupt
  | content (l : List String)
deriving DecidableEq

/-- `load_responded_chats` (loyalL.py lines 47-58): return the empty set when
the file is absent, `set(data)` for a decoded array, and the empty set from
the exception handler on any read or parse failure. -/
def load_responded_chats : FileState → Finset String
  | FileState.absent => ∅
  | FileState.corrupt => ∅
  | FileState.content l => l.toFinset

/-- `save_responded_chats` (loyalL.py lines 60-67): write `list(responded_chats)`
as a JSON array.  Python's arbitrary set-enumeration order is modelled by the
canonical sorted enumeration. -/
def save_responded_chats (S : Finset String) : FileState :=
  FileState.content (S.sort (· ≤ ·))

/-- `MAX_RESPONDED_CHATS` (loyalL.py line 461). -/
def MAX_RESPONDED_CHATS : Nat := 1000

/-- Python list slice `l[-n:]`: the last `n` elements (the whole list when
`n ≥ len(l)`, which Nat subtraction gives for free). -/
def pyTakeLast (n : Nat) (l : List α) : List α :=
  l.drop (l.length - n)

/-- The per-cycle trim step of `monitor_and_respond` (loyalL.py lines 563-567):
when the set has grown past `MAX_RESPONDED_CHATS`, keep only the last
`MAX_RESPONDED_CHATS` elements of its (arbitrary) enumeration. -/
def trim_responded_chats (S : Finset String) : Finset String :=
  if MAX_RESPONDED_CHATS < S.card then
    (pyTakeLast MAX_RESPONDED_CHATS (S.sort (· ≤ ·))).toFinset
  else S

/-- The record-and-flush step after a successful send (loyalL.py lines
539-543): `responded_chats.add(simplified_id)`, then
`save_responded_chats` only when the new size is a multiple of 5.
Returns the new in-memory set, the new file state, and whether a flush
happened. -/
def recordResponse (S : Finset String) (disk : FileState) (id : String) :
    Finset String × FileState × Bool :=
  let S' := insert id S
  if S'.card % 5 = 0 then (S', save_responded_chats S', true)
  else (S', disk, false)

/-- The name and message preview extracted from a chat row by
`get_chat_details` (loyalL.py lines 340-370). -/
structure ChatInfo where
  name : String
  preview : String
deriving DecidableEq

/-- `simplified_id` (loyalL.py line 518): the fingerprint
`chat_info['name'] + "|" + chat_info['preview']`. -/
def simplified_id (c : ChatInfo) : String :=
  c.name ++ "|" ++ c.preview

/-- Outcome of processing the unread chats of one scan cycle. -/
structure CycleResult where
  responded : Finset String
  disk : FileState
  opened : List ChatInfo
  replied : List ChatInfo
deriving DecidableEq

/-- The per-unread-chat loop of `monitor_and_respond` (loyalL.py lines
495-561), on the chats whose details were extracted.  `openOk c` models
whether `open_chat` succeeds on `c`, and `sendOk c` whether `send_message`
succeeds; both are external Selenium calls.  For each chat in order: skip it
when its fingerprint is already in the set; otherwise check the preview for
trigger words; on a match, open the chat, send the reply, and on success
record the fingerprint via `recordResponse`. -/
def processUnread (openOk sendOk : ChatInfo → Bool) :
    Finset String → FileState → List ChatInfo → CycleResult
  | S, disk, [] => ⟨S, disk, [], []⟩
  | S, disk, c :: rest =>
    if simplified_id c ∈ S then
      processUnread openOk sendOk S disk rest
    else
      match check_for_trigger_words c.preview.toList with
      | none => processUnread openOk sendOk S disk rest
      | some _ =>
        if openOk c then
          if sendOk c then
            let r := recordResponse S disk (simplified_id c)
            let res := processUnread openOk sendOk r.1 r.2.1 rest
            ⟨res.responded, res.disk, c :: res.opened, c :: res.replied⟩
          else
            let res := processUnread openOk sendOk S disk rest
            ⟨res.responded, res.disk, c :: res.opened, res.replied⟩
        else
          processUnread openOk sendOk S disk rest

/-! ### Helper lemmas -/

theorem pySplitNl_ne_nil (m : List Char) : pySplitNl m ≠ [] := by
  cases m with
  | nil => simp [pySplitNl]
  | cons c cs =>
    simp only [pySplitNl]
    split
    · simp
    · split <;> simp

theorem intercalate_cons_cons (sep a b : List Char) (rest : List (List Char)) :
    List.intercalate sep (a :: b :: rest) = a ++ sep ++ List.intercalate sep (b :: rest) := by
  simp [List.intercalate, List.intersperse, List.append_assoc]

theorem intercalate_pySplitNl (m : List Char) :
    List.intercalate ['\n'] (pySplitNl m) = m := by
  induction m with
  | nil => simp [pySplitNl, List.intercalate]
  | cons c cs ih =>
    rcases h : pySplitNl cs with _ | ⟨l, ls⟩
    · exact absurd h (pySplitNl_ne_nil cs)
    · rw [h] at ih
      by_cases hc : c = '\n'
      · subst hc
        have e : pySplitNl ('\n' :: cs) = [] :: l :: ls := by
          simp [pySplitNl, h]
        rw [e, intercalate_cons_cons]
        simpa using ih
      · have e : pySplitNl (c :: cs) = (c :: l) :: ls := by
          simp [pySplitNl, h, hc]
        rw [e]
        cases ls with
        | nil =>
          have ih2 : l = cs := by
            simpa [List.intercalate, List.intersperse] using ih
          simp [List.intercalate, List.intersperse, ih2]
        | cons l2 ls2 =>
          rw [intercalate_cons_cons]
          rw [intercalate_cons_cons] at ih
          rw [← ih]
          simp

theorem recordResponse_fst (S : Finset String) (disk : FileState) (id : String) :
    (recordResponse S disk id).1 = insert id S := by
  rw [recordResponse]
  split <;> rfl

/-! ### Claims -/

/-- Claim C1, counterexample.  The claim states that a sanitization step
removes every character above `0xFFFF` from the reply before sending, so that
the text sent for `"hi😀there"` would be `"hithere"`.  In fact `send_message`
types the reply verbatim: the text it inputs for `"hi😀there"` is
`"hi😀there"`, which differs from what the spec sanitizer would produce. -/
theorem send_text_differs_from_spec_sanitizer :
    send_message_text ("hi😀there").toList = ("hi😀there").toList ∧
      sanitizeSpec ("hi😀there").toList = ("hithere").toList ∧
      send_message_text ("hi😀there").toList ≠ sanitizeSpec ("hi😀there").toList :=
  ⟨by decide, by decide, by decide⟩

/-- Claim C1, amended.  `send_message` applies no sanitization at all: the
text it types into the input box (splitting on newlines and re-inserting them
via Shift+Enter) is the reply string unchanged, every character preserved
including code points above `0xFFFF`. -/
theorem send_message_text_unchanged (message : List Char) :
    send_message_text message = message :=
  intercalate_pySplitNl message

/-- Claim C2.  Trigger matching is case-insensitive substring containment:
for every message text, `check_for_trigger_words` returns the (unique)
trigger-table entry exactly when the lower-cased trigger phrase occurs as a
substring of the lower-cased, stripped message text; in particular the message
"Hellokaun there" matches the trigger "hellokaun". -/
theorem check_for_trigger_words_iff_substring :
    (∀ msg : List Char,
        check_for_trigger_words msg = some (("hellokaun").toList, AUTO_RESPONSE) ↔
          pyInStr (pyLower ("hellokaun").toList) (pyStrip (pyLower msg)) = true) ∧
      check_for_trigger_words ("Hellokaun there").toList =
        some (("hellokaun").toList, AUTO_RESPONSE) := by
  constructor
  · intro msg
    by_cases h : msg = []
    · subst h
      decide
    · rw [check_for_trigger_words, if_neg h]
      simp only [TRIGGER_RESPONSES, List.find?]
      cases hp : pyInStr (pyLower ("hellokaun").toList) (pyStrip (pyLower msg)) <;> simp
  · decide

/-- Claim C3.  Dedup-set persistence round-trips: saving any finite set of
fingerprints with `save_responded_chats` and loading it back with
`load_responded_chats` yields the original set. -/
theorem load_save_roundtrip (S : Finset String) :
    load_responded_chats (save_responded_chats S) = S := by
  simp only [save_responded_chats, load_responded_chats]
  exact Finset.sort_toFinset _ S

/-- Claim C4.  The per-cycle trim step caps the responded-chats set: its
result has exactly `min |S| 1000` elements, so a set that grew past the cap
of `MAX_RESPONDED_CHATS = 1000` is cut back to exactly the cap and the cap is
never exceeded. -/
theorem trim_responded_chats_card (S : Finset String) :
    (trim_responded_chats S).card = min S.card MAX_RESPONDED_CHATS := by
  rw [trim_responded_chats]
  split
  · rename_i h
    have hnd : (pyTakeLast MAX_RESPONDED_CHATS (S.sort (· ≤ ·))).Nodup :=
      (List.drop_sublist _ _).nodup (Finset.sort_nodup _ S)
    rw [List.toFinset_card_of_nodup hnd, pyTakeLast, List.length_drop, Finset.length_sort]
    omega
  · rename_i h
    omega

/-- Claim C7.  Fingerprint dedup has set semantics: adding the same
`(name, preview)` fingerprint twice leaves the set size unchanged, and
membership holds after a single add. -/
theorem dedup_add_idempotent_contains (S : Finset String) (name preview : String) :
    (insert (simplified_id ⟨name, preview⟩)
          (insert (simplified_id ⟨name, preview⟩) S)).card =
        (insert (simplified_id ⟨name, preview⟩) S).card ∧
      simplified_id ⟨name, preview⟩ ∈ insert (simplified_id ⟨name, preview⟩) S :=
  ⟨by rw [Finset.insert_idem], Finset.mem_insert_self _ _⟩

/-- Claim C8.  Loading the dedup store when the persisted file is absent is
not an error: `load_responded_chats` returns the empty set. -/
theorem load_absent_empty : load_responded_chats FileState.absent = ∅ := rfl

/-- Claim C9.  The fingerprint `name + "|" + preview` is not injective on
`(name, preview)` pairs: the pairs `("a|b", "c")` and `("a", "b|c")` have
different names and different previews yet the same fingerprint. -/
theorem simplified_id_not_injective :
    simplified_id ⟨"a|b", "c"⟩ = simplified_id ⟨"a", "b|c"⟩ ∧
      ("a|b" : String) ≠ "a" ∧ ("c" : String) ≠ "b|c" :=
  ⟨by decide, by decide, by decide⟩

/-- Claim C10.  `load_responded_chats` is total (never raises): on a corrupt
or unparsable persisted file it returns the empty set, discarding all prior
dedup history, and on every file state it returns a set — the decoded
contents for a well-formed file, the empty set otherwise. -/
theorem load_corrupt_empty_total :
    load_responded_chats FileState.corrupt = ∅ ∧
      ∀ fs : FileState,
        load_responded_chats fs = ∅ ∨
          ∃ l, fs = FileState.content l ∧ load_responded_chats fs = l.toFinset := by
  refine ⟨rfl, ?_⟩
  intro fs
  cases fs with
  | absent => exact Or.inl rfl
  | corrupt => exact Or.inl rfl
  | content l => exact Or.inr ⟨l, rfl, rfl⟩

/-- Claim C5.  The dedup flush to disk is periodic, not per-addition: after
adding a fresh fingerprint, `save_responded_chats` runs exactly when the new
set size is a multiple of 5 — i.e. on every fifth addition — and an addition
that does not bring the count to a flush point leaves the file untouched. -/
theorem flush_every_fifth_addition (S : Finset String) (disk : FileState) (id : String)
    (h : id ∉ S) :
    ((recordResponse S disk id).2.2 = true ↔ (S.card + 1) % 5 = 0) ∧
      ((S.card + 1) % 5 ≠ 0 → (recordResponse S disk id).2.1 = disk) := by
  simp only [recordResponse, Finset.card_insert_of_not_mem h]
  by_cases h5 : (S.card + 1) % 5 = 0 <;> simp [h5]

/-- Witness for claim C5 at the concrete input `S = ∅`, `id = "a"`: the first
addition (new size 1) does not flush and leaves the absent file absent. -/
theorem flush_every_fifth_addition_witness :
    ("a" ∉ (∅ : Finset String)) ∧
      (((recordResponse ∅ FileState.absent "a").2.2 = true ↔
          ((∅ : Finset String).card + 1) % 5 = 0) ∧
        (((∅ : Finset String).card + 1) % 5 ≠ 0 →
          (recordResponse ∅ FileState.absent "a").2.1 = FileState.absent)) :=
  ⟨by simp, flush_every_fifth_addition ∅ FileState.absent "a" (by simp)⟩

/-- Claim C6.  A conversation whose fingerprint is already in the dedup set is
skipped: in a scan cycle starting from the set `S`, a chat whose
`simplified_id` is in `S` is never opened and never replied to, whatever the
outcomes of the external open and send calls. -/
theorem already_responded_not_opened (openOk sendOk : ChatInfo → Bool)
    (S : Finset String) (disk : FileState) (chats : List ChatInfo) (c : ChatInfo)
    (h : simplified_id c ∈ S) :
    c ∉ (processUnread openOk sendOk S disk chats).opened ∧
      c ∉ (processUnread openOk sendOk S disk chats).replied := by
  induction chats generalizing S disk with
  | nil => simp [processUnread]
  | cons d rest ih =>
    rw [processUnread]
    by_cases hd : simplified_id d ∈ S
    · rw [if_pos hd]
      exact ih S disk h
    · rw [if_neg hd]
      have hne : c ≠ d := fun he => hd (he ▸ h)
      cases ht : check_for_trigger_words d.preview.toList with
      | none => exact ih S disk h
      | some t =>
        by_cases ho : openOk d = true
        · rw [if_pos ho]
          by_cases hs : sendOk d = true
          · rw [if_pos hs]
            have hmem : simplified_id c ∈ (recordResponse S disk (simplified_id d)).1 := by
              rw [recordResponse_fst]
              exact Finset.mem_insert_of_mem h
            have hrest := ih (recordResponse S disk (simplified_id d)).1
              (recordResponse S disk (simplified_id d)).2.1 hmem
            simp only [List.mem_cons]
            constructor
            · intro hc
              rcases hc with h1 | h1
              · exact hne h1
              · exact hrest.1 h1
            · intro hc
              rcases hc with h1 | h1
              · exact hne h1
              · exact hrest.2 h1
          · rw [if_neg hs]
            have hrest := ih S disk h
            simp only [List.mem_cons]
            refine ⟨?_, hrest.2⟩
            intro hc
            rcases hc with h1 | h1
            · exact hne h1
            · exact hrest.1 h1
        · rw [if_neg ho]
          exact ih S disk h

/-- Witness for claim C6 at a concrete input: with the fingerprint
`"x|hellokaun"` already recorded, the chat from "x" previewing "hellokaun" is
neither opened nor replied to even though its preview matches the trigger and
the external calls would succeed. -/
theorem already_responded_not_opened_witness :
    (simplified_id ⟨"x", "hellokaun"⟩ ∈ ({"x|hellokaun"} : Finset String)) ∧
      ((⟨"x", "hellokaun"⟩ : ChatInfo) ∉
          (processUnread (fun _ => true) (fun _ => true) {"x|hellokaun"} FileState.absent
            [⟨"x", "hellokaun"⟩]).opened ∧
        (⟨"x", "hellokaun"⟩ : ChatInfo) ∉
          (processUnread (fun _ => true) (fun _ => true) {"x|hellokaun"} FileState.absent
            [⟨"x", "hellokaun"⟩]).replied) :=
  ⟨by decide,
    already_responded_not_opened (fun _ => true) (fun _ => true) {"x|hellokaun"}
      FileState.absent [⟨"x", "hellokaun"⟩] ⟨"x", "hellokaun"⟩ (by decide)⟩

end LoyalL
